import Mathlib

/-
Verification of the physlearn supervised regression module
(`physlearn/supervised/regression.py`).

The development shallowly embeds the orchestration logic of the module:
the scoring component (`BaseRegressor.score`, `Regressor.score`), the
target-slicing component (`BaseRegressor._check_target_index`), the data
validation memoisation (`BaseRegressor._validate_data`), the fit helper
(`BaseRegressor._fit`), the base-boosting gate (`Regressor.baseboostcv`,
`Regressor._inbuilt_model_selection_step`, `Regressor.predict`), the
search engine sign restoration (`Regressor.search`), and the nested
cross-validation orchestrator (`Regressor._search_and_score`,
`Regressor.nested_cross_validate`).

Data matrices are embedded as lists of rational columns (target matrices,
column-major) or lists of rational rows (feature matrices, row-major, as
the fold splitters slice rows).  Floating point values are idealised as
rationals, except where the source applies `np.sqrt` or `np.log1p`, which
are embedded as the corresponding real functions.  Python exceptions are
embedded as `Except`/`Option` results, and the `np.nan` sentinel used by
the scoring policy is embedded as `Option.none`.
-/

namespace Physlearn

/-- A single target column (pandas Series of floats, idealised as ℚ). -/
abbrev Col := List ℚ

/-- A target matrix, column-major: one entry per target column. -/
abbrev Cols := List Col

/-- A single sample row of a feature matrix. -/
abbrev Row := List ℚ

/-- A feature matrix, row-major: one entry per sample. -/
abbrev Data := List Row

/-- Arithmetic mean of a list of rationals (`np.average`); the empty list
yields `0/0 = 0`, a junk value never reached under the shape hypotheses. -/
def meanQ (l : List ℚ) : ℚ := l.sum / l.length

/-- The two multioutput aggregation modes that every metric of
`BaseRegressor.score` accepts (`raw_values` keeps the per-target vector,
`uniform_average` averages it into a single value). -/
inductive MO where
  | raw_values
  | uniform_average
deriving DecidableEq

/-- Multioutput aggregation applied by the sklearn metric backends: keep
the per-target vector, or average it into a singleton. -/
def applyMO (mo : MO) (vals : List ℚ) : List ℚ :=
  match mo with
  | MO.raw_values => vals
  | MO.uniform_average => [meanQ vals]

/-- Per-column mean absolute error (`sklearn.metrics.mean_absolute_error`
on one output column). -/
def colMAE (t p : Col) : ℚ := meanQ ((t.zip p).map fun a => |a.1 - a.2|)

/-- Per-column mean squared error (`sklearn.metrics.mean_squared_error`
on one output column). -/
def colMSE (t p : Col) : ℚ := meanQ ((t.zip p).map fun a => (a.1 - a.2) ^ 2)

/-- Per-target mean absolute errors of paired target matrices. -/
def maeQ (T P : Cols) : List ℚ := (T.zip P).map fun a => colMAE a.1 a.2

/-- Per-target mean squared errors of paired target matrices. -/
def mseQ (T P : Cols) : List ℚ := (T.zip P).map fun a => colMSE a.1 a.2

/-- Per-column R² score (`sklearn.metrics.r2_score` on one output column,
including sklearn's guard for a constant true column: score 1 when the
residual is also zero, else score 0). -/
def r2Col (t p : Col) : ℚ :=
  let num := ((t.zip p).map fun a => (a.1 - a.2) ^ 2).sum
  let den := (t.map fun a => (a - meanQ t) ^ 2).sum
  if den ≠ 0 then 1 - num / den else if num = 0 then 1 else 0

/-- Per-column explained variance score
(`sklearn.metrics.explained_variance_score` on one output column, with
the same constant-column guard as R²). -/
def evCol (t p : Col) : ℚ :=
  let resid := (t.zip p).map fun a => a.1 - a.2
  let num := (resid.map fun a => (a - meanQ resid) ^ 2).sum / (resid.length : ℚ)
  let den := (t.map fun a => (a - meanQ t) ^ 2).sum / (t.length : ℚ)
  if den ≠ 0 then 1 - num / den else if num = 0 then 1 else 0

/-- Per-target R² scores of paired target matrices. -/
def r2Q (T P : Cols) : List ℚ := (T.zip P).map fun a => r2Col a.1 a.2

/-- Per-target explained variance scores of paired target matrices. -/
def evQ (T P : Cols) : List ℚ := (T.zip P).map fun a => evCol a.1 a.2

/-- `BaseRegressor._check_target_index`: when a target index is
configured and the target matrix is multi-target (at least two columns,
`sklearn.utils.multiclass.type_of_target` in `_MULTI_TARGET`), select
that single column; otherwise return the target unchanged. -/
def sliceTarget (tIdx : Option ℕ) (T : Cols) : Cols :=
  match tIdx with
  | some k => if 2 ≤ T.length then [T.getD k []] else T
  | none => T

/-- Whether any entry of a target matrix is negative (the condition under
which `sklearn.metrics.mean_squared_log_error` raises a `ValueError`). -/
def hasNegB (T : Cols) : Bool := T.any fun c => c.any fun x => decide (x < 0)

/-- Whether two target matrices have consistent shapes (the condition
checked by sklearn's `_check_reg_targets`, which raises a `ValueError`
on mismatch). -/
def consistentB (T P : Cols) : Bool :=
  (T.length == P.length) && ((T.zip P).all fun a => a.1.length == a.2.length)

/-- Arithmetic mean of a list of reals. -/
noncomputable def meanR (l : List ℝ) : ℝ := l.sum / l.length

/-- Per-target mean squared logarithmic errors, the value sklearn returns
when no entry is negative: the mean of `(log1p t - log1p p) ^ 2`. -/
noncomputable def msleVals (T P : Cols) : List ℝ :=
  (T.zip P).map fun a =>
    meanR ((a.1.zip a.2).map fun b =>
      (Real.log (1 + (b.1 : ℝ)) - Real.log (1 + (b.2 : ℝ))) ^ 2)

/-- Multioutput aggregation over real-valued per-target scores. -/
noncomputable def applyMOR (mo : MO) (vals : List ℝ) : List ℝ :=
  match mo with
  | MO.raw_values => vals
  | MO.uniform_average => [meanR vals]

/-- The `'mae'` branch of `BaseRegressor.score`: slice the true targets
by the configured target index, then compute the mean absolute error
under the requested multioutput mode. -/
def score_mae (tIdx : Option ℕ) (T P : Cols) (mo : MO) : List ℚ :=
  applyMO mo (maeQ (sliceTarget tIdx T) P)

/-- The `'mse'` branch of `BaseRegressor.score`. -/
def score_mse (tIdx : Option ℕ) (T P : Cols) (mo : MO) : List ℚ :=
  applyMO mo (mseQ (sliceTarget tIdx T) P)

/-- The `'mse'` branch of `BaseRegressor.score`, viewed in ℝ (the float
value sklearn hands back to the caller). -/
noncomputable def score_mse_r (tIdx : Option ℕ) (T P : Cols) (mo : MO) : List ℝ :=
  (score_mse tIdx T P mo).map fun q : ℚ => (q : ℝ)

/-- The `'rmse'` branch of `BaseRegressor.score`: `np.sqrt` applied
elementwise to the mean squared error result. -/
noncomputable def score_rmse (tIdx : Option ℕ) (T P : Cols) (mo : MO) : List ℝ :=
  (score_mse tIdx T P mo).map fun q : ℚ => Real.sqrt (q : ℝ)

/-- The `'r2'` branch of `BaseRegressor.score`. -/
def score_r2 (tIdx : Option ℕ) (T P : Cols) (mo : MO) : List ℚ :=
  applyMO mo (r2Q (sliceTarget tIdx T) P)

/-- The `'ev'` branch of `BaseRegressor.score`. -/
def score_ev (tIdx : Option ℕ) (T P : Cols) (mo : MO) : List ℚ :=
  applyMO mo (evQ (sliceTarget tIdx T) P)

/-- The `'msle'` branch of `BaseRegressor.score`: the sklearn call is
wrapped in a bare `try/except`, so any backend `ValueError` (inconsistent
shapes, or a negative entry in the true or predicted targets) is absorbed
into the sentinel `np.nan`, embedded here as `none`. -/
noncomputable def score_msle (tIdx : Option ℕ) (T P : Cols) (mo : MO) : Option (List ℝ) :=
  let T' := sliceTarget tIdx T
  if consistentB T' P = true then
    if (hasNegB T' || hasNegB P) = true then none
    else some (applyMOR mo (msleVals T' P))
  else none

/-- The list `_SCORE_CHOICE` of metric names iterated by
`Regressor.score` (the six branches of `BaseRegressor.score`). -/
def SCORE_CHOICE : List String := ["mae", "mse", "rmse", "r2", "ev", "msle"]

/-- Python truthiness of a string: non-empty strings are truthy. -/
def pyTruthy (s : String) : Bool := s ≠ ""

/-- The Python expression `any(v for _ in lst)`: the generator yields the
same value `v` once per element of `lst`, so `any` tests the truthiness
of `v` whenever `lst` is non-empty — it never compares `v` against the
elements of `lst`. -/
def pyAny (lst : List String) (v : String) : Bool := lst.any fun _ => pyTruthy v

/-- The assertion block at the top of `BaseRegressor.score`:
`assert any(scoring for method in _SCORE_CHOICE) and isinstance(scoring, str)`
followed by
`assert any(multioutput for output in possible_multioutputs)`, where the
possible multioutputs are `['raw_values', 'uniform_average',
'variance_weighted']` for `'r2'`/`'ev'` and
`['raw_values', 'uniform_average']` otherwise.  Returns `true` when the
assertions pass. -/
def score_assert_check (scoring multioutput : String) : Bool :=
  (pyAny SCORE_CHOICE scoring) &&
  (if scoring == "r2" || scoring == "ev" then
    pyAny ["raw_values", "uniform_average", "variance_weighted"] multioutput
  else
    pyAny ["raw_values", "uniform_average"] multioutput)

/-- Claim C4: for every `y_true` and `y_pred` (of consistent shapes),
scoring with the mean-squared-log-error metric returns the not-a-number
sentinel exactly when some entry of `y_true` or `y_pred` is negative (the
backend exception is absorbed, never propagated), and otherwise returns
an actual (hence finite, real) value. -/
theorem claim_C4_msle_nan_policy (T P : Cols) (mo : MO)
    (h : consistentB T P = true) :
    score_msle none T P mo = none ↔ (hasNegB T || hasNegB P) = true := by
  unfold score_msle sliceTarget
  rw [if_pos h]
  by_cases hneg : (hasNegB T || hasNegB P) = true
  · simp [hneg]
  · simp [hneg]

/-- Witness for claim C4: a concrete negative entry in `y_true` yields
the sentinel. -/
theorem claim_C4_witness :
    consistentB [[(-1 : ℚ)]] [[(1 : ℚ)]] = true ∧
      score_msle none [[(-1 : ℚ)]] [[(1 : ℚ)]] MO.raw_values = none :=
  ⟨by decide, (claim_C4_msle_nan_policy [[(-1 : ℚ)]] [[(1 : ℚ)]] MO.raw_values
      (by decide)).mpr (by decide)⟩

/-- Claim C5 (refuted): the multioutput validation of
`BaseRegressor.score` is a truthiness slip — `any(multioutput for output
in possible_multioutputs)` passes for every non-empty string, so a policy
outside the documented sets (for example `'variance_weighted'` for
`'mae'`, or the string `'bogus'` for any metric) is accepted by the
assertions instead of being rejected before the metric is computed. -/
theorem claim_C5_multioutput_check_accepts_invalid :
    score_assert_check "mae" "variance_weighted" = true ∧
      score_assert_check "mae" "bogus" = true ∧
      score_assert_check "r2" "bogus" = true := by
  decide

/-- Claim C8: for every `y_true`, `y_pred`, target index and multioutput
policy, the root-mean-squared-error branch equals the square root of the
mean-squared-error branch elementwise, and every returned value is
nonnegative. -/
theorem claim_C8_rmse_sqrt_mse (tIdx : Option ℕ) (T P : Cols) (mo : MO) :
    score_rmse tIdx T P mo = (score_mse_r tIdx T P mo).map Real.sqrt ∧
      ∀ v ∈ score_rmse tIdx T P mo, 0 ≤ v := by
  constructor
  · unfold score_rmse score_mse_r
    rw [List.map_map]
    rfl
  · intro v hv
    unfold score_rmse at hv
    obtain ⟨q, _, rfl⟩ := List.mem_map.mp hv
    exact Real.sqrt_nonneg _

/-- Witness for claim C8 at a concrete input: the equality holds and the
single returned value is nonnegative. -/
theorem claim_C8_witness :
    score_rmse none [[(1 : ℚ)]] [[(1 : ℚ)]] MO.raw_values =
        (score_mse_r none [[(1 : ℚ)]] [[(1 : ℚ)]] MO.raw_values).map Real.sqrt ∧
      0 ≤ Real.sqrt ((colMSE [(1 : ℚ)] [(1 : ℚ)] : ℚ) : ℝ) :=
  ⟨(claim_C8_rmse_sqrt_mse none [[(1 : ℚ)]] [[(1 : ℚ)]] MO.raw_values).1,
    (claim_C8_rmse_sqrt_mse none [[(1 : ℚ)]] [[(1 : ℚ)]] MO.raw_values).2
      (Real.sqrt ((colMSE [(1 : ℚ)] [(1 : ℚ)] : ℚ) : ℝ))
      (by simp [score_rmse, score_mse, applyMO, mseQ, sliceTarget])⟩

/-- The number of rows of the score table produced by `Regressor.score`:
one row per (index-sliced) target column paired with a prediction
column. -/
def nRows (tIdx : Option ℕ) (T P : Cols) : ℕ := ((sliceTarget tIdx T).zip P).length

/-- One column of the score summary assembled by `Regressor.score` under
the class default `score_multioutput='raw_values'`: the per-target values
of the named metric, with the scalar `np.nan` the msle branch can return
broadcast by `pd.DataFrame` over every row of the column. -/
noncomputable def metricCol (tIdx : Option ℕ) (T P : Cols) (s : String) : List (Option ℝ) :=
  if s = "mae" then (score_mae tIdx T P MO.raw_values).map fun q : ℚ => some (q : ℝ)
  else if s = "mse" then (score_mse tIdx T P MO.raw_values).map fun q : ℚ => some (q : ℝ)
  else if s = "rmse" then (score_rmse tIdx T P MO.raw_values).map some
  else if s = "r2" then (score_r2 tIdx T P MO.raw_values).map fun q : ℚ => some (q : ℝ)
  else if s = "ev" then (score_ev tIdx T P MO.raw_values).map fun q : ℚ => some (q : ℝ)
  else if s = "msle" then
    match score_msle tIdx T P MO.raw_values with
    | none => List.replicate (nRows tIdx T P) none
    | some v => v.map some
  else []

/-- The full score summary of `Regressor.score` before `dropna`: one
column per metric of `_SCORE_CHOICE`. -/
noncomputable def score_table_full (tIdx : Option ℕ) (T P : Cols) :
    List (String × List (Option ℝ)) :=
  SCORE_CHOICE.map fun s => (s, metricCol tIdx T P s)

/-- The column-keeping test of `dropna(how='any', axis=1)`: a column
survives exactly when it contains no `np.nan` entry. -/
def colKept (c : String × List (Option ℝ)) : Bool := c.2.all fun v => v.isSome

/-- The table returned by `Regressor.score`: metric columns of the score
summary with the `dropna` filter applied, indexed by target (index name
`'target'`), or re-indexed to the single label `target_index + 1` when a
target index is configured. -/
structure ScoreFrame where
  table : List (String × List (Option ℝ))
  index : List ℕ
  indexName : Option String

/-- `Regressor.score` under the class default
`score_multioutput='raw_values'`. -/
noncomputable def regressor_score (tIdx : Option ℕ) (T P : Cols) : ScoreFrame :=
  { table := (score_table_full tIdx T P).filter colKept
    index :=
      match tIdx with
      | some k => [k + 1]
      | none => List.range (nRows tIdx T P)
    indexName :=
      match tIdx with
      | some _ => none
      | none => some "target" }

/-- Every metric column of the score summary is homogeneous: either it is
a list of actual values of full length, or it is the broadcast all-`nan`
column the msle branch produces. -/
theorem metricCol_shape (tIdx : Option ℕ) (T P : Cols) (s : String)
    (hs : s ∈ SCORE_CHOICE) :
    (∃ l : List ℝ, metricCol tIdx T P s = l.map some ∧ l.length = nRows tIdx T P) ∨
      metricCol tIdx T P s = List.replicate (nRows tIdx T P) none := by
  simp only [SCORE_CHOICE, List.mem_cons, List.not_mem_nil, or_false] at hs
  rcases hs with rfl | rfl | rfl | rfl | rfl | rfl
  · exact Or.inl ⟨(score_mae tIdx T P MO.raw_values).map fun q : ℚ => (q : ℝ),
      by simp [metricCol, List.map_map],
      by simp [score_mae, maeQ, applyMO, nRows]⟩
  · exact Or.inl ⟨(score_mse tIdx T P MO.raw_values).map fun q : ℚ => (q : ℝ),
      by simp [metricCol, List.map_map],
      by simp [score_mse, mseQ, applyMO, nRows]⟩
  · exact Or.inl ⟨score_rmse tIdx T P MO.raw_values,
      by simp [metricCol],
      by simp [score_rmse, score_mse, mseQ, applyMO, nRows]⟩
  · exact Or.inl ⟨(score_r2 tIdx T P MO.raw_values).map fun q : ℚ => (q : ℝ),
      by simp [metricCol, List.map_map],
      by simp [score_r2, r2Q, applyMO, nRows]⟩
  · exact Or.inl ⟨(score_ev tIdx T P MO.raw_values).map fun q : ℚ => (q : ℝ),
      by simp [metricCol, List.map_map],
      by simp [score_ev, evQ, applyMO, nRows]⟩
  · cases hmsle : score_msle tIdx T P MO.raw_values with
    | none => exact Or.inr (by simp [metricCol, hmsle])
    | some v =>
        refine Or.inl ⟨v, by simp [metricCol, hmsle], ?_⟩
        have : v = applyMOR MO.raw_values (msleVals (sliceTarget tIdx T) P) := by
          unfold score_msle at hmsle
          by_cases hc : consistentB (sliceTarget tIdx T) P = true
          · rw [if_pos hc] at hmsle
            by_cases hneg : (hasNegB (sliceTarget tIdx T) || hasNegB P) = true
            · rw [if_pos hneg] at hmsle; cases hmsle
            · rw [if_neg hneg] at hmsle; exact (Option.some_inj.mp hmsle).symm
          · rw [if_neg hc] at hmsle; cases hmsle
        rw [this]
        simp [applyMOR, msleVals, nRows]

/-- Claim C9: `Regressor.score` computes all six metrics; a metric column
is dropped exactly when it is entirely `np.nan` (equivalently, under
`dropna(how='any', axis=1)`, every produced column is homogeneous, so a
column with at least one actual entry is kept); and the returned table is
indexed by target (index name `'target'`), or by the single label
`target_index + 1` when a target index is configured. -/
theorem claim_C9_aggregate_score (tIdx : Option ℕ) (T P : Cols)
    (hn : 0 < nRows tIdx T P) :
    ((score_table_full tIdx T P).map Prod.fst = SCORE_CHOICE) ∧
      (∀ c ∈ score_table_full tIdx T P,
        (c ∈ (regressor_score tIdx T P).table ↔ ∃ v ∈ c.2, v.isSome = true)) ∧
      (∀ k, tIdx = some k → (regressor_score tIdx T P).index = [k + 1]) ∧
      (tIdx = none → (regressor_score tIdx T P).index = List.range (nRows tIdx T P) ∧
        (regressor_score tIdx T P).indexName = some "target") := by
  refine ⟨?_, ?_, ?_, ?_⟩
  · simp only [score_table_full, List.map_map]
    rfl
  · intro c hc
    obtain ⟨s, hs, rfl⟩ := List.mem_map.mp hc
    have hshape := metricCol_shape tIdx T P s hs
    constructor
    · intro hkept
      have hk : colKept (s, metricCol tIdx T P s) = true :=
        (List.mem_filter.mp hkept).2
      rcases hshape with ⟨l, hl, hlen⟩ | hnan
      · have : l ≠ [] := by
          intro hnil
          rw [hnil] at hlen
          simp at hlen
          omega
        obtain ⟨x, t, rfl⟩ := List.exists_cons_of_ne_nil this
        exact ⟨some x, by simp [hl], rfl⟩
      · exfalso
        unfold colKept at hk
        rw [hnan] at hk
        simp at hk
        omega
    · intro ⟨v, hv, hvsome⟩
      rcases hshape with ⟨l, hl, _⟩ | hnan
      · refine List.mem_filter.mpr ⟨hc, ?_⟩
        unfold colKept
        simp [hl]
      · exfalso
        rw [hnan] at hv
        have := List.eq_of_mem_replicate hv
        rw [this] at hvsome
        simp at hvsome
  · intro k hk
    simp [regressor_score, hk]
  · intro hk
    simp [regressor_score, hk]

/-- Witness for claim C9 at a concrete single-target input where msle is
defined: all six metric columns are present and kept. -/
theorem claim_C9_witness :
    (score_table_full none [[(1 : ℚ)]] [[(1 : ℚ)]]).map Prod.fst = SCORE_CHOICE ∧
      (regressor_score none [[(1 : ℚ)]] [[(1 : ℚ)]]).index = List.range 1 ∧
      (regressor_score none [[(1 : ℚ)]] [[(1 : ℚ)]]).indexName = some "target" :=
  ⟨(claim_C9_aggregate_score none [[(1 : ℚ)]] [[(1 : ℚ)]] (by decide)).1,
    ((claim_C9_aggregate_score none [[(1 : ℚ)]] [[(1 : ℚ)]] (by decide)).2.2.2 rfl).1,
    ((claim_C9_aggregate_score none [[(1 : ℚ)]] [[(1 : ℚ)]] (by decide)).2.2.2 rfl).2⟩

/-- The attribute state of a `Regressor` instance that the base-boosting
gate manipulates: `_return_incumbent` (set by the model selection step),
`return_incumbent_` (set by `baseboostcv` and read by `predict`), and
whether the candidate pipeline was fitted. -/
structure BBState where
  return_incumbent_flag : Bool
  return_incumbent_ : Bool
  fitted : Bool
deriving DecidableEq

/-- The sign restoration of `BaseRegressor.cross_val_score` via
`cross_validate`: sklearn scorers return negated MAE and MSE values, so
for those two scoring names every per-fold test score is replaced by its
absolute value; the per-fold incumbent scores are left as computed (they
come from `BaseRegressor.score` and are already nonnegative errors). -/
def cross_val_score_restore (scoring : String) (rawTest : List ℚ) : List ℚ :=
  if scoring == "neg_mean_absolute_error" || scoring == "neg_mean_squared_error" then
    rawTest.map fun s => |s|
  else rawTest

/-- `Regressor._inbuilt_model_selection_step`: cross-validate the
candidate (per-fold raw sklearn test scores `rawTest`) together with the
incumbent (per-fold incumbent errors `inc`), take the column-wise means
of the returned frame, and set the `_return_incumbent` attribute when the
candidate mean is at least the incumbent mean. -/
def inbuilt_model_selection_step (scoring : String) (st : BBState)
    (rawTest inc : List ℚ) : BBState :=
  if meanQ (cross_val_score_restore scoring rawTest) ≥ meanQ inc then
    { st with return_incumbent_flag := true }
  else st

/-- `Regressor.baseboostcv` on a fresh instance: run the inbuilt model
selection step; if the incumbent was not chosen, fit the candidate
pipeline on the full data, otherwise set `return_incumbent_` and leave
the candidate unfitted. -/
def baseboostcv (scoring : String) (rawTest inc : List ℚ) : BBState :=
  let st := inbuilt_model_selection_step scoring ⟨false, false, false⟩ rawTest inc
  if ¬st.return_incumbent_flag then { st with fitted := true }
  else { st with return_incumbent_ := true }

/-- The value returned by `Regressor.predict`, tagged by the branch that
produced it: the raw feature matrix, one column of the feature matrix, or
the fitted pipeline's prediction. -/
inductive PredictOut where
  | fromFeatures (v : Data)
  | fromColumn (v : List ℚ)
  | fromPipe (v : List ℚ)
deriving DecidableEq

/-- `Regressor.predict`: if `return_incumbent_` is set, return the raw
feature data (or its `target_index` column) unchanged, bypassing the
pipeline; otherwise delegate to the fitted pipeline. -/
def regressor_predict (st : BBState) (tIdx : Option ℕ) (pipePred : Data → List ℚ)
    (X : Data) : PredictOut :=
  if st.return_incumbent_ then
    match tIdx with
    | some k => PredictOut.fromColumn (X.map fun r => r.getD k 0)
    | none => PredictOut.fromFeatures X
  else PredictOut.fromPipe (pipePred X)

/-- Claim C1: `baseboostcv` compares the fold-wise mean of the restored
candidate test scores against the fold-wise mean of the incumbent scores.
When the candidate mean is at least the incumbent mean (ties favour the
incumbent) the incumbent flag is set, the candidate is left unfitted, and
every subsequent `predict` returns the raw feature data (or its
`target_index` column) unchanged, for any pipeline whatsoever; otherwise
the candidate is fitted and `predict` uses the pipeline. -/
theorem claim_C1_baseboost_gate (scoring : String) (rawTest inc : List ℚ)
    (tIdx : Option ℕ) (pipePred : Data → List ℚ) (X : Data)
    (hs : scoring = "neg_mean_absolute_error" ∨ scoring = "neg_mean_squared_error") :
    (meanQ (rawTest.map fun s => |s|) ≥ meanQ inc →
      (baseboostcv scoring rawTest inc).return_incumbent_ = true ∧
        (baseboostcv scoring rawTest inc).fitted = false ∧
        regressor_predict (baseboostcv scoring rawTest inc) tIdx pipePred X =
          (match tIdx with
           | some k => PredictOut.fromColumn (X.map fun r => r.getD k 0)
           | none => PredictOut.fromFeatures X)) ∧
    (meanQ (rawTest.map fun s => |s|) < meanQ inc →
      (baseboostcv scoring rawTest inc).return_incumbent_ = false ∧
        (baseboostcv scoring rawTest inc).fitted = true ∧
        regressor_predict (baseboostcv scoring rawTest inc) tIdx pipePred X =
          PredictOut.fromPipe (pipePred X)) := by
  have hrestore : cross_val_score_restore scoring rawTest = rawTest.map fun s => |s| := by
    rcases hs with rfl | rfl <;> simp [cross_val_score_restore]
  constructor
  · intro hge
    have hstep : inbuilt_model_selection_step scoring ⟨false, false, false⟩ rawTest inc =
        ⟨true, false, false⟩ := by
      unfold inbuilt_model_selection_step
      rw [hrestore, if_pos hge]
    have hbb : baseboostcv scoring rawTest inc = ⟨true, true, false⟩ := by
      unfold baseboostcv
      rw [hstep]
      simp
    rw [hbb]
    refine ⟨rfl, rfl, ?_⟩
    cases tIdx <;> simp [regressor_predict]
  · intro hlt
    have hstep : inbuilt_model_selection_step scoring ⟨false, false, false⟩ rawTest inc =
        ⟨false, false, false⟩ := by
      unfold inbuilt_model_selection_step
      rw [hrestore, if_neg (not_le.mpr hlt)]
    have hbb : baseboostcv scoring rawTest inc = ⟨false, false, true⟩ := by
      unfold baseboostcv
      rw [hstep]
      simp
    rw [hbb]
    exact ⟨rfl, rfl, by simp [regressor_predict]⟩

/-- Witness for claim C1: with candidate mean error 2 against incumbent
mean error 1 the incumbent is selected, the candidate stays unfitted, and
prediction returns the raw features. -/
theorem claim_C1_witness :
    (baseboostcv "neg_mean_absolute_error" [-2] [1]).return_incumbent_ = true ∧
      (baseboostcv "neg_mean_absolute_error" [-2] [1]).fitted = false ∧
      regressor_predict (baseboostcv "neg_mean_absolute_error" [-2] [1]) none
          (fun _ => []) [[5]] = PredictOut.fromFeatures [[5]] :=
  (claim_C1_baseboost_gate "neg_mean_absolute_error" [-2] [1] none (fun _ => []) [[5]]
    (Or.inl rfl)).1 (by norm_num [meanQ])

/-- Python's `re.match('neg', s)`: the scoring name starts with the three
characters `neg`. -/
def startsWithNeg (s : String) : Bool :=
  match s.data with
  | 'n' :: 'e' :: 'g' :: _ => true
  | _ => false

/-- The `best_score_` exposed by the underlying search mechanism: the
maximum of the candidates' mean cross-validated scores. -/
def bestScore : List ℚ → ℚ
  | [] => 0
  | h :: t => t.foldl max h

/-- The `best_score_` stored by `Regressor.search` after completion: the
underlying mechanism's best score, multiplied by `-1.0` when the
configured scoring name matches `re.match('neg', ...)`. -/
def search_best_score (scoring : String) (candScores : List ℚ) : ℚ :=
  if startsWithNeg scoring then -1 * bestScore candScores else bestScore candScores

theorem foldl_max_nonpos {a : ℚ} {l : List ℚ} (ha : a ≤ 0) (hl : ∀ x ∈ l, x ≤ 0) :
    l.foldl max a ≤ 0 := by
  induction l generalizing a with
  | nil => exact ha
  | cons b t ih =>
      refine ih (max_le ha (hl b (List.mem_cons_self b t))) ?_
      intro x hx
      exact hl x (List.mem_cons_of_mem b hx)

/-- Claim C7: for a completed search whose configured scoring name has
the negated-error naming convention, the candidate scores are negated
errors, so the stored `best_score_` value is nonnegative after the sign
restoration. -/
theorem claim_C7_sign_restoration (scoring : String) (errs : List ℚ)
    (h1 : startsWithNeg scoring = true) (h2 : ∀ e ∈ errs, 0 ≤ e) (h3 : errs ≠ []) :
    0 ≤ search_best_score scoring (errs.map fun e => -e) := by
  unfold search_best_score
  rw [if_pos h1]
  have hbest : bestScore (errs.map fun e => -e) ≤ 0 := by
    obtain ⟨e, t, rfl⟩ := List.exists_cons_of_ne_nil h3
    unfold bestScore
    simp only [List.map_cons]
    refine foldl_max_nonpos ?_ ?_
    · simpa using h2 e (List.mem_cons_self e t)
    · intro x hx
      obtain ⟨y, hy, rfl⟩ := List.mem_map.mp hx
      simpa using h2 y (List.mem_cons_of_mem e hy)
  linarith

/-- Witness for claim C7 at a concrete search over two candidate error
values. -/
theorem claim_C7_witness :
    0 ≤ search_best_score "neg_mean_absolute_error" ([(1 : ℚ), 2].map fun e => -e) :=
  claim_C7_sign_restoration "neg_mean_absolute_error" [1, 2] (by decide)
    (by decide) (by decide)

/-- Start offset of the `i`-th test block of
`sklearn.model_selection.KFold(n_splits=k)` without shuffling: the first
`n % k` folds have size `n / k + 1` and the rest size `n / k`. -/
def foldStart (n k i : ℕ) : ℕ := i * (n / k) + min i (n % k)

/-- Size of the `i`-th test block of `KFold(n_splits=k)`. -/
def foldSize (n k i : ℕ) : ℕ := n / k + if i < n % k then 1 else 0

/-- The `i`-th test index block of `KFold(n_splits=k)` over `n` samples:
a contiguous run of row indices. -/
def testFold (n k i : ℕ) : List ℕ := List.range' (foldStart n k i) (foldSize n k i)

/-- The `i`-th train index block of `KFold(n_splits=k)`: every row index
not in the test block. -/
def trainFold (n k i : ℕ) : List ℕ :=
  (List.range n).filter fun j => decide (j ∉ testFold n k i)

/-- The fold splits produced by `check_cv` on an integer fold count for a
continuous target: `KFold(n_splits=k)` without shuffling, as consumed by
`Regressor.nested_cross_validate` via `outer_cv.split`. -/
def kfold (n k : ℕ) : List (List ℕ × List ℕ) :=
  (List.range k).map fun i => (trainFold n k i, testFold n k i)

/-- Row selection by a list of indices
(`sklearn.utils.metaestimators._safe_split`, i.e. positional indexing of
the row-aligned data). -/
def selectRows (d : Data) (idx : List ℕ) : Data := idx.map fun i => d.getD i []

/-- The invocation of `Regressor.search` made inside
`Regressor._search_and_score`: the search method name it is handed and
the rows of `X` and `y` it is fitted on. -/
structure SearchCall where
  method : String
  Xrows : Data
  yrows : Data
deriving DecidableEq

/-- The data flow of one outer fold of `Regressor._search_and_score`:
`_safe_split` extracts the train rows, `self.search` runs on exactly
those rows with the given search method, and `_score` evaluates the
selected model on the test rows. -/
structure FoldEval where
  searchCall : SearchCall
  scoreX : Data
  scoreY : Data
deriving DecidableEq

/-- `Regressor._search_and_score`: split the data into the fold's train
and test rows, hand the train rows to the inner search, and score on the
test rows. -/
def search_and_score (X y : Data) (train test : List ℕ) (method : String) : FoldEval :=
  { searchCall := { method := method, Xrows := selectRows X train, yrows := selectRows y train }
    scoreX := selectRows X test
    scoreY := selectRows y test }

/-- `Regressor.nested_cross_validate`: resolve the outer folds with
`check_cv`, then dispatch `_search_and_score` for every outer fold.  The
dispatch at the parallel call site passes the literal
`search_method='gridsearchcv'`, not the method received from the caller
(`search_method` is accepted as an argument but never forwarded). -/
def nested_cross_validate (X y : Data) (search_method : String) (outer_cv : ℕ) :
    List FoldEval :=
  (kfold X.length outer_cv).map fun fold =>
    search_and_score X y fold.1 fold.2 "gridsearchcv"

/-- A row index in a fold's test block never occurs in the same fold's
train block. -/
theorem testFold_not_mem_trainFold {n k i j : ℕ} (hj : j ∈ testFold n k i) :
    j ∉ trainFold n k i := by
  intro htr
  have := (List.mem_filter.mp htr).2
  exact (of_decide_eq_true this) hj

/-- Claim C2 (refuted): even when the caller requests
`search_method='randomizedsearchcv'`, every inner-loop search dispatched
by `nested_cross_validate` is invoked with `'gridsearchcv'`. -/
theorem claim_C2_inner_method_hardcoded :
    (nested_cross_validate [[0], [1], [2], [3]] [[0], [1], [2], [3]]
        "randomizedsearchcv" 2).map (fun ev => ev.searchCall.method) =
      ["gridsearchcv", "gridsearchcv"] := by
  rfl

/-- Claim C3: every fold evaluation of `nested_cross_validate` hands the
inner search exactly the rows selected by that fold's outer-train
indices; no outer-test index is an outer-train index; and the outer-test
rows appear only as the scoring inputs. -/
theorem claim_C3_no_outer_test_leakage (X y : Data) (m : String) (k : ℕ) :
    ∀ ev ∈ nested_cross_validate X y m k,
      ∃ i < k,
        ev.searchCall.Xrows = selectRows X (trainFold X.length k i) ∧
        ev.searchCall.yrows = selectRows y (trainFold X.length k i) ∧
        (∀ j ∈ testFold X.length k i, j ∉ trainFold X.length k i) ∧
        ev.scoreX = selectRows X (testFold X.length k i) ∧
        ev.scoreY = selectRows y (testFold X.length k i) := by
  intro ev hev
  unfold nested_cross_validate kfold at hev
  rw [List.map_map] at hev
  obtain ⟨i, hi, rfl⟩ := List.mem_map.mp hev
  refine ⟨i, List.mem_range.mp hi, rfl, rfl, ?_, rfl, rfl⟩
  intro j hj
  exact testFold_not_mem_trainFold hj

/-- Witness for claim C3 at a concrete dataset of four rows split into
two outer folds: the first dispatched evaluation searches only on the
second half of the rows and scores on the first half. -/
theorem claim_C3_witness :
    ∃ i < 2,
      (search_and_score [[0], [1], [2], [3]] [[10], [11], [12], [13]]
          (trainFold 4 2 0) (testFold 4 2 0) "gridsearchcv").searchCall.Xrows =
        selectRows [[0], [1], [2], [3]] (trainFold 4 2 i) ∧
      (search_and_score [[0], [1], [2], [3]] [[10], [11], [12], [13]]
          (trainFold 4 2 0) (testFold 4 2 0) "gridsearchcv").searchCall.yrows =
        selectRows [[10], [11], [12], [13]] (trainFold 4 2 i) ∧
      (∀ j ∈ testFold 4 2 i, j ∉ trainFold 4 2 i) ∧
      (search_and_score [[0], [1], [2], [3]] [[10], [11], [12], [13]]
          (trainFold 4 2 0) (testFold 4 2 0) "gridsearchcv").scoreX =
        selectRows [[0], [1], [2], [3]] (testFold 4 2 i) ∧
      (search_and_score [[0], [1], [2], [3]] [[10], [11], [12], [13]]
          (trainFold 4 2 0) (testFold 4 2 0) "gridsearchcv").scoreY =
        selectRows [[10], [11], [12], [13]] (testFold 4 2 i) :=
  claim_C3_no_outer_test_leakage [[0], [1], [2], [3]] [[10], [11], [12], [13]]
    "gridsearchcv" 2
    (search_and_score [[0], [1], [2], [3]] [[10], [11], [12], [13]]
      (trainFold 4 2 0) (testFold 4 2 0) "gridsearchcv")
    (by decide)

/-- Prefix test on character lists (one step of Python's substring
search). -/
def startsWith : List Char → List Char → Bool
  | [], _ => true
  | _ :: _, [] => false
  | a :: as, b :: bs => a == b && startsWith as bs

/-- Python's `needle in haystack` on strings: some suffix of the haystack
starts with the needle. -/
def containsSub (needle : List Char) : List Char → Bool
  | [] => startsWith needle []
  | h :: t => startsWith needle (h :: t) || containsSub needle t

/-- The substring `BaseRegressor._fit` looks for in the caught
`TypeError` message: note the absence of quotes around `sample_weight`. -/
def sampleWeightNeedle : List Char := "unexpected keyword argument sample_weight".data

/-- The single-quote character, written by code point to build CPython's
quoted error message. -/
def singleQuote : Char := Char.ofNat 39

/-- The message CPython actually raises when a keyword argument is not
accepted: `fit() got an unexpected keyword argument 'sample_weight'`,
with quotes around the argument name. -/
def cpythonKwargMsg : List Char :=
  "fit() got an unexpected keyword argument ".data ++
    [singleQuote] ++ "sample_weight".data ++ [singleQuote]

/-- How a backend regressor's `fit` reacts to being passed a
`sample_weight` keyword. -/
inductive BackendFit where
  | accepts
  | raisesTypeError (msg : List Char)
deriving DecidableEq

/-- The outcome of `BaseRegressor._fit`: the regressor was fitted, a
descriptive capability `TypeError` naming the backend class was raised,
or the caught `TypeError` was absorbed by the `except` block without
re-raising — leaving the regressor unfitted and the caller unaware. -/
inductive FitOutcome where
  | fitted
  | capabilityError (cls : String)
  | swallowed
deriving DecidableEq

/-- `BaseRegressor._fit`: with no sample weight, fit plainly. With a
sample weight, try fitting with it; on a `TypeError` whose message
contains the unquoted substring, re-raise the descriptive capability
error; on any other `TypeError`, the `except` block falls through and the
exception is silently discarded. -/
def base_fit (cls : String) (backend : BackendFit) (sample_weight : Option (List ℚ)) :
    FitOutcome :=
  match sample_weight with
  | none => FitOutcome.fitted
  | some _ =>
    match backend with
    | BackendFit.accepts => FitOutcome.fitted
    | BackendFit.raisesTypeError msg =>
      if containsSub sampleWeightNeedle msg then FitOutcome.capabilityError cls
      else FitOutcome.swallowed

/-- Claim C6 (refuted): a backend that rejects `sample_weight` raises
CPython's quoted message, which does not contain the unquoted substring
`_fit` checks for, so the `TypeError` is silently swallowed and the
regressor is left unfitted without any error — contradicting the claim
that a descriptive capability error is always raised. -/
theorem claim_C6_sample_weight_swallowed :
    containsSub sampleWeightNeedle cpythonKwargMsg = false ∧
      base_fit "LinearRegression" (BackendFit.raisesTypeError cpythonKwargMsg)
        (some [1]) = FitOutcome.swallowed := by
  constructor
  · rfl
  · rfl

/-- The attribute-presence state `BaseRegressor._validate_data` checks:
whether `_validated_data` has been set on the instance. -/
structure VState where
  validated_data : Bool
deriving DecidableEq

/-- Modelled from the spec: the helper `_validate_data` from
`physlearn.supervised.utils._data_checks` is not under `src/`.  Per the
spec's data model, X and y are row-aligned matrices whose row counts must
be equal, each rectangular (rows of one width); on success the validated
pair is returned. -/
def validate_data_pair (X y : Data) : Except String (Data × Data) :=
  if X.length = y.length ∧
      (∀ r ∈ X, r.length = (X.getD 0 []).length) ∧
      (∀ r ∈ y, r.length = (y.getD 0 []).length) then
    Except.ok (X, y)
  else Except.error "invalid data representation"

/-- Modelled from the spec: single-argument validation of one matrix,
checking rectangularity. -/
def validate_data_single (d : Data) : Except String Data :=
  if ∀ r ∈ d, r.length = (d.getD 0 []).length then Except.ok d
  else Except.error "invalid data representation"

/-- `BaseRegressor._validate_data`: when both X and y are supplied and
the `_validated_data` attribute is absent, validate them and set the
attribute; once the attribute is present every call returns its inputs
unchanged without validating.  Single-argument calls validate only while
the attribute is absent and never set it.  With neither argument, raise a
`ValueError`. -/
def base_validate_data (s : VState) (X? y? : Option Data) :
    Except String ((Option Data × Option Data) × VState) :=
  match X?, y? with
  | some X, some y =>
    if s.validated_data then Except.ok ((some X, some y), s)
    else
      match validate_data_pair X y with
      | Except.ok (X', y') => Except.ok ((some X', some y'), ⟨true⟩)
      | Except.error e => Except.error e
  | some X, none =>
    if s.validated_data then Except.ok ((some X, none), s)
    else
      match validate_data_single X with
      | Except.ok X' => Except.ok ((some X', none), s)
      | Except.error e => Except.error e
  | none, some y =>
    if s.validated_data then Except.ok ((none, some y), s)
    else
      match validate_data_single y with
      | Except.ok y' => Except.ok ((none, some y'), s)
      | Except.error e => Except.error e
  | none, none =>
    Except.error "Both the data matrix X and the target matrix y are None."

/-- Claim C10: the first call validating X and y together sets the
`_validated_data` flag, and once the flag is set every later
`_validate_data` call that supplies data — hence every later fit,
predict, scoring, search or cross-validation entry point — returns its
inputs unchanged with no validation performed, even for arbitrary (and
arbitrarily invalid) new inputs. -/
theorem claim_C10_validation_memoised (X y X' y' : Data)
    (h : validate_data_pair X y = Except.ok (X, y)) :
    base_validate_data ⟨false⟩ (some X) (some y) =
        Except.ok ((some X, some y), ⟨true⟩) ∧
      base_validate_data ⟨true⟩ (some X') (some y') =
        Except.ok ((some X', some y'), ⟨true⟩) ∧
      base_validate_data ⟨true⟩ (some X') none =
        Except.ok ((some X', none), ⟨true⟩) ∧
      base_validate_data ⟨true⟩ none (some y') =
        Except.ok ((none, some y'), ⟨true⟩) := by
  refine ⟨?_, rfl, rfl, rfl⟩
  unfold base_validate_data
  simp [h]

/-- Witness for claim C10: after a successful joint validation, a later
call with mismatched matrices (which `validate_data_pair` would reject)
is passed through unchanged. -/
theorem claim_C10_witness :
    validate_data_pair [[1]] [[2]] = Except.ok ([[1]], [[2]]) ∧
      validate_data_pair ([] : Data) [[1], [2]] =
        Except.error "invalid data representation" ∧
      base_validate_data ⟨false⟩ (some [[1]]) (some [[2]]) =
        Except.ok ((some [[1]], some [[2]]), ⟨true⟩) ∧
      base_validate_data ⟨true⟩ (some ([] : Data)) (some [[1], [2]]) =
        Except.ok ((some ([] : Data), some [[1], [2]]), ⟨true⟩) :=
  ⟨by rfl, by rfl,
    (claim_C10_validation_memoised [[1]] [[2]] ([] : Data) [[1], [2]] (by rfl)).1,
    (claim_C10_validation_memoised [[1]] [[2]] ([] : Data) [[1], [2]] (by rfl)).2.1⟩

end Physlearn
